import Mathlib

/-!
Shallow embedding of `src/mlflow/pytorch/_pytorch_autolog.py`.

The module is an autologging shim over pytorch-lightning: `_autolog` sets a
module-global `every_n_epoch`, defines a callback class `__MLflowPLCallback`
with four lifecycle hooks (`on_epoch_end`, `on_train_start`, `on_train_end`,
`on_test_end`), and patches `pl.Trainer.fit` with a wrapper that manages an
mlflow run and registers the callback.

The embedding models each hook as a pure function from the Python objects it
reads (trainer, module, the callback's own `early_stopping` flag) to the list
of mlflow client calls it makes, in source order.  Each recorded call carries
a `wrapped` flag: `true` when the source routes it through `try_mlflow_log`
(which catches and swallows any exception from the client), `false` when the
source calls the client directly.  A separate interpreter `runEmitted` takes a
failure oracle for the client and either returns the successfully logged calls
or propagates the first failure of an unwrapped call, which is exactly the
exception behaviour of the Python code.

Python `hasattr` checks on the early-stopping object and the optimizer are
modelled with `Option` fields; reading an absent attribute without a `hasattr`
guard is an `AttributeError`, modelled with `Except String`.  Python floats
are not interpreted: the `float(value)` coercion applied to metric values is
recorded symbolically by the constructor `PyVal.float`, and parameter values
are opaque `PyVal`s.  File-system side effects (the model-summary temp file)
are abstracted to the artifact-logging call they end in; the temp-directory
component of its path is dropped.
-/

namespace PytorchAutolog

/-- An (uninterpreted) Python value, as handed to the logging client.
`PyVal.float v` records the application of Python `float(...)` to `v`. -/
inductive PyVal where
  | int : Int → PyVal
  | str : String → PyVal
  | float : PyVal → PyVal
  | pair : PyVal → PyVal → PyVal
deriving DecidableEq

/-- One call into the mlflow client, with its arguments as the source passes
them.  `log_model` is `mlflow.pytorch.log_model`; the rest are the `mlflow.*`
functions of the same names. -/
inductive MlflowCall where
  | set_tag (key value : String)
  | log_param (key : String) (value : PyVal)
  | log_metric (key : String) (value : PyVal) (step : Option Int)
  | log_artifact (local_path : String) (artifact_path : Option String)
  | log_model (artifact_path : String)
  | start_run
  | end_run
deriving DecidableEq

/-- A client call as the shim issues it: `wrapped = true` when it goes through
`try_mlflow_log` (exceptions swallowed), `false` for a direct call. -/
structure Emitted where
  call : MlflowCall
  wrapped : Bool
deriving DecidableEq

/-- `try_mlflow_log(f, args...)` from `mlflow.utils.autologging_utils`: the
call is attempted and any exception it raises is caught and logged away. -/
def try_mlflow_log (c : MlflowCall) : Emitted := ⟨c, true⟩

/-- A direct client call, outside `try_mlflow_log`. -/
def direct_call (c : MlflowCall) : Emitted := ⟨c, false⟩

/-- The attributes of a `pl.callbacks.early_stopping.EarlyStopping` object the
shim reads.  `none` models an absent attribute (`hasattr` false). -/
structure EarlyStoppingCfg where
  monitor : Option PyVal
  mode : Option PyVal
  patience : Option Int
  min_delta : Option PyVal
  stopped_epoch : Option Int
  best_score : Option PyVal
  wait_count : Option Int
deriving DecidableEq

/-- The checkpoint callback attribute read in `on_train_end`; an empty
`best_model_path` is falsy in Python. -/
structure CheckpointCallback where
  best_model_path : String
deriving DecidableEq

/-- A torch optimizer as the shim sees it: its class name and its `defaults`
dict (absent when `hasattr(optimizer, "defaults")` is false). -/
structure Optimizer where
  cls_name : String
  defaults : Option (List (String × PyVal))
deriving DecidableEq

/-- An entry of `trainer.callbacks`: an early-stopping callback, an instance
of the shim's own `__MLflowPLCallback` (whose state is its `early_stopping`
flag), or any other callback. -/
inductive PLCallback where
  | earlyStopping (es : EarlyStoppingCfg)
  | mlflowCallback (early_stopping : Bool)
  | otherCallback (id : Nat)
deriving DecidableEq

/-- The trainer attributes the shim reads.  `optimizers = none` models
`hasattr(trainer, "optimizers")` being false. -/
structure Trainer where
  callback_metrics : List (String × PyVal)
  callbacks : List PLCallback
  max_epochs : PyVal
  optimizers : Option (List Optimizer)
  checkpoint_callback : CheckpointCallback
deriving DecidableEq

/-- The pl_module attribute the shim reads. -/
structure PLModule where
  current_epoch : Int
deriving DecidableEq

/-- Reading attribute `name` off an object: `AttributeError` when absent. -/
def getattr_or_raise {α : Type} (o : Option α) (name : String) :
    Except String α :=
  match o with
  | some a => .ok a
  | none => .error ("AttributeError: " ++ name)

/-- `__MLflowPLCallback._early_stop_check` (source lines 183-207): when
`stopped_epoch` is nonzero, log `stopped_epoch`, `restored_epoch =
stopped_epoch - max(1, patience)`, and, attribute permitting, `best_score`
and `wait_count`.  `stopped_epoch` (line 190) and `patience` (line 197) are
read without a `hasattr` guard. -/
def _early_stop_check (early_stop_callback : EarlyStoppingCfg) :
    Except String (List Emitted) :=
  match getattr_or_raise early_stop_callback.stopped_epoch "stopped_epoch" with
  | .error msg => .error msg
  | .ok se =>
    if se ≠ 0 then
      let stoppedPart : Except String (List Emitted) :=
        if early_stop_callback.stopped_epoch.isSome then
          match getattr_or_raise early_stop_callback.patience "patience" with
          | .error msg => .error msg
          | .ok p =>
            .ok [try_mlflow_log (.log_metric "stopped_epoch" (.int se) none),
                 try_mlflow_log (.log_metric "restored_epoch"
                   (.int (se - max 1 p)) none)]
        else .ok []
      let bestPart :=
        match early_stop_callback.best_score with
        | some bs =>
          [try_mlflow_log (.log_metric "best_score" (.float bs) none)]
        | none => []
      let waitPart :=
        match early_stop_callback.wait_count with
        | some wc =>
          [try_mlflow_log (.log_metric "wait_count" (.int wc) none)]
        | none => []
      match stoppedPart with
      | .error msg => .error msg
      | .ok sp => .ok (sp ++ bestPart ++ waitPart)
    else
      .ok []

/-- The loop over `trainer.callbacks` at the end of `on_epoch_end`
(source lines 71-73): `_early_stop_check` on each early-stopping callback. -/
def esChecks : List PLCallback → Except String (List Emitted)
  | [] => .ok []
  | .earlyStopping es :: rest =>
      match _early_stop_check es with
      | .error msg => .error msg
      | .ok l =>
        match esChecks rest with
        | .error msg => .error msg
        | .ok r => .ok (l ++ r)
  | .mlflowCallback _ :: rest => esChecks rest
  | .otherCallback _ :: rest => esChecks rest

/-- `__MLflowPLCallback.on_epoch_end` (source lines 58-73): when
`(current_epoch + 1) % every_n_epoch == 0`, log every entry of
`trainer.callback_metrics` as a metric, converted with `float(...)`, at
`step=pl_module.current_epoch`; then run `_early_stop_check` on each
early-stopping callback of the trainer. -/
def on_epoch_end (every_n_epoch : Int) (trainer : Trainer)
    (pl_module : PLModule) : Except String (List Emitted) :=
  let metricsPart :=
    if (pl_module.current_epoch + 1) % every_n_epoch = 0 then
      trainer.callback_metrics.map fun kv =>
        try_mlflow_log
          (.log_metric kv.1 (.float kv.2) (some pl_module.current_epoch))
    else []
  match esChecks trainer.callbacks with
  | .error msg => .error msg
  | .ok esPart => .ok (metricsPart ++ esPart)

/-- `__MLflowPLCallback._log_early_stop_params` (source lines 161-181): log
each of `monitor`, `mode`, `patience`, `min_delta`, `stopped_epoch` as a
parameter when the attribute exists. -/
def _log_early_stop_params (early_stop_obj : EarlyStoppingCfg) :
    List Emitted :=
  (match early_stop_obj.monitor with
   | some v => [try_mlflow_log (.log_param "monitor" v)]
   | none => []) ++
  (match early_stop_obj.mode with
   | some v => [try_mlflow_log (.log_param "mode" v)]
   | none => []) ++
  (match early_stop_obj.patience with
   | some p => [try_mlflow_log (.log_param "patience" (.int p))]
   | none => []) ++
  (match early_stop_obj.min_delta with
   | some v => [try_mlflow_log (.log_param "min_delta" v)]
   | none => []) ++
  (match early_stop_obj.stopped_epoch with
   | some se => [try_mlflow_log (.log_param "stopped_epoch" (.int se))]
   | none => [])

/-- Python `str.lower()` as applied to optimizer class names (character-wise
lowercasing). -/
def pyLower (s : String) : String := String.mk (s.data.map Char.toLower)

/-- The body of the optimizer loop in `on_train_start` (source lines 91-120):
log the optimizer class name, then `lr`, `eps`, `betas`, `weight_decay` from
`optimizer.defaults` when present, each under the lower-cased class name
suffixed `_optimizer`. -/
def logOptimizerParams (optimizer : Optimizer) : List Emitted :=
  let optimizer_name := pyLower optimizer.cls_name ++ "_optimizer"
  try_mlflow_log (.log_param "optimizer_name" (.str optimizer.cls_name)) ::
  (match optimizer.defaults with
   | none => []
   | some optim_dict =>
     (match optim_dict.lookup "lr" with
      | some v =>
        [try_mlflow_log (.log_param ("learning_rate_" ++ optimizer_name) v)]
      | none => []) ++
     (match optim_dict.lookup "eps" with
      | some v =>
        [try_mlflow_log (.log_param ("epsilon_" ++ optimizer_name) v)]
      | none => []) ++
     (match optim_dict.lookup "betas" with
      | some v =>
        [try_mlflow_log (.log_param ("betas_" ++ optimizer_name) v)]
      | none => []) ++
     (match optim_dict.lookup "weight_decay" with
      | some v =>
        [try_mlflow_log (.log_param ("weight_decay_" ++ optimizer_name) v)]
      | none => []))

/-- Is this callback an `EarlyStopping` instance? -/
def isEarlyStoppingCb : PLCallback → Bool
  | .earlyStopping _ => true
  | _ => false

/-- `__MLflowPLCallback.on_train_start` (source lines 75-131): tag
`Mode=training`, log the `epochs` parameter, set `self.early_stopping` and log
early-stop parameters for each early-stopping callback, log optimizer data
when `trainer.optimizers` exists, and log the model-summary file as an
artifact.  Returns the new `early_stopping` flag and the emitted calls; the
summary file's temp-directory prefix is abstracted away. -/
def on_train_start (self_early_stopping : Bool) (trainer : Trainer)
    (pl_module : PLModule) : Bool × List Emitted :=
  let _ := pl_module
  let flag := self_early_stopping || trainer.callbacks.any isEarlyStoppingCb
  let esPart := trainer.callbacks.flatMap fun cb =>
    match cb with
    | .earlyStopping es => _log_early_stop_params es
    | _ => []
  let optPart :=
    match trainer.optimizers with
    | some os => os.flatMap logOptimizerParams
    | none => []
  (flag,
    try_mlflow_log (.set_tag "Mode" "training") ::
    try_mlflow_log (.log_param "epochs" trainer.max_epochs) ::
    esPart ++ optPart ++
    [try_mlflow_log (.log_artifact "model_summary.txt" none)])

/-- `__MLflowPLCallback.on_train_end` (source lines 133-148): store the model
via `mlflow.pytorch.log_model` under artifact path `"model"` — a direct call,
not routed through `try_mlflow_log` — then, when `self.early_stopping` is set
and `trainer.checkpoint_callback.best_model_path` is truthy (non-empty), log
that checkpoint under `"restored_model_checkpoint"`. -/
def on_train_end (self_early_stopping : Bool) (trainer : Trainer) :
    List Emitted :=
  direct_call (.log_model "model") ::
  (if self_early_stopping ∧ trainer.checkpoint_callback.best_model_path ≠ ""
   then
     [try_mlflow_log (.log_artifact trainer.checkpoint_callback.best_model_path
        (some "restored_model_checkpoint"))]
   else [])

/-- `__MLflowPLCallback.on_test_end` (source lines 150-159): tag
`Mode=testing` and log every entry of `trainer.callback_metrics`, converted
with `float(...)`, with no step. -/
def on_test_end (trainer : Trainer) : List Emitted :=
  try_mlflow_log (.set_tag "Mode" "testing") ::
  trainer.callback_metrics.map fun kv =>
    try_mlflow_log (.log_metric kv.1 (.float kv.2) none)

/-- A lifecycle hook of `pl.Callback`.  The four named ones are those
`__MLflowPLCallback` overrides; `otherHook name` is any other hook of the
framework's callback interface. -/
inductive HookEvent where
  | epoch_end
  | train_start
  | train_end
  | test_end
  | otherHook (name : String)
deriving DecidableEq

/-- Dispatching a lifecycle hook on a `__MLflowPLCallback` instance whose
`early_stopping` flag is `self_early_stopping`: the four overridden hooks run
the bodies above; every other hook falls through to the no-op inherited from
`pl.Callback`.  Returns the new flag and the emitted calls (or the raised
exception). -/
def runHook (every_n_epoch : Int) (self_early_stopping : Bool)
    (trainer : Trainer) (pl_module : PLModule) :
    HookEvent → Bool × Except String (List Emitted)
  | .epoch_end =>
      (self_early_stopping, on_epoch_end every_n_epoch trainer pl_module)
  | .train_start =>
      let r := on_train_start self_early_stopping trainer pl_module
      (r.1, .ok r.2)
  | .train_end =>
      (self_early_stopping, .ok (on_train_end self_early_stopping trainer))
  | .test_end => (self_early_stopping, .ok (on_test_end trainer))
  | .otherHook _ => (self_early_stopping, .ok [])

/-- Interpreter for an emission list against a client-failure oracle `fails`.
A wrapped call that fails is swallowed (and logs nothing); an unwrapped call
that fails raises, aborting the rest — `Except.error c` is the uncaught
exception escaping the hook.  On success the list of calls that actually
reached the client is returned. -/
def runEmitted (fails : MlflowCall → Bool) :
    List Emitted → Except MlflowCall (List MlflowCall)
  | [] => .ok []
  | e :: es =>
    if e.wrapped then
      match runEmitted fails es with
      | .ok l => .ok (if fails e.call then l else e.call :: l)
      | .error c => .error c
    else
      if fails e.call then .error e.call
      else
        match runEmitted fails es with
        | .ok l => .ok (e.call :: l)
        | .error c => .error c

/-- Is this callback an instance of `__MLflowPLCallback`? -/
def isMlflowCallback : PLCallback → Bool
  | .mlflowCallback _ => true
  | _ => false

/-- The callback registration step of `_run_and_log_function` (source lines
220-221): append a fresh `__MLflowPLCallback()` (its `__init__` sets
`early_stopping = False`) unless one is already in `self.callbacks`. -/
def registerCallback (self_callbacks : List PLCallback) : List PLCallback :=
  if self_callbacks.any isMlflowCallback then self_callbacks
  else self_callbacks ++ [.mlflowCallback false]

/-- What the patched `fit` produces: the original `fit`'s return value, the
trainer's callback list after registration, and the client calls made by the
wrapper itself plus everything `original` emitted. -/
structure FitOutcome (ρ : Type) where
  result : ρ
  callbacks : List PLCallback
  calls : List Emitted
deriving DecidableEq

/-- `_run_and_log_function` (source lines 209-225): when no run is active,
`try_mlflow_log(mlflow.start_run)` and remember to auto-end; register the
callback; run the original `fit`; auto-end the run when one was started here.
`original` is the unpatched `pl.Trainer.fit`, abstracted as a function of the
trainer's callback list and the remaining arguments, returning its value and
the client calls made during training. -/
def _run_and_log_function {α ρ : Type} (active_run : Bool)
    (self_callbacks : List PLCallback)
    (original : List PLCallback → α → ρ × List Emitted) (args : α) :
    FitOutcome ρ :=
  let auto_end_run := !active_run
  let startPart := if !active_run then [try_mlflow_log .start_run] else []
  let callbacks := registerCallback self_callbacks
  let r := original callbacks args
  let endPart := if auto_end_run then [try_mlflow_log .end_run] else []
  ⟨r.1, callbacks, startPart ++ r.2 ++ endPart⟩

/-- The patched `fit` (source lines 227-233): fetch the original attribute and
delegate to `_run_and_log_function`. -/
def fit {α ρ : Type} (active_run : Bool) (self : Trainer)
    (original : List PLCallback → α → ρ × List Emitted) (args : α) :
    FitOutcome ρ :=
  _run_and_log_function active_run self.callbacks original args

/-- Effect of one successful client call on the "a run is active" state:
`mlflow.start_run` activates, `mlflow.end_run` deactivates, and no other
logging call touches run management. -/
def applyRunCall (active : Bool) : MlflowCall → Bool
  | .start_run => true
  | .end_run => false
  | _ => active

/-- The run-active state after a list of emitted calls (all assumed to
succeed). -/
def activeAfter (active : Bool) (calls : List Emitted) : Bool :=
  calls.foldl (fun a e => applyRunCall a e.call) active

/-- `wrap_patch(destination, name, patch_obj)` from
`mlflow.utils.autologging_utils`: replace attribute `name` of the class,
leaving every other attribute alone.  The class is modelled extensionally as
a map from attribute names to members. -/
def wrap_patch {μ : Type} (destination : String → μ) (name : String)
    (patch_obj : μ) : String → μ :=
  fun attr => if attr = name then patch_obj else destination attr

/-- The single patching action `_autolog` performs (source line 235):
`wrap_patch(pl.Trainer, "fit", fit)`. -/
def autologPatchedTrainer {μ : Type} (trainerCls : String → μ)
    (fitPatch : μ) : String → μ :=
  wrap_patch trainerCls "fit" fitPatch

/-- How many `__MLflowPLCallback` instances a callback list holds. -/
def countMlflowCallbacks (cbs : List PLCallback) : Nat :=
  cbs.countP isMlflowCallback

/-- An emission list that never touches run management. -/
def noRunManagement (l : List Emitted) : Prop :=
  ∀ e ∈ l, e.call ≠ .start_run ∧ e.call ≠ .end_run

/-! Concrete fixtures used to witness the theorems below. -/

/-- An early-stopping callback with every attribute present. -/
def sampleES : EarlyStoppingCfg :=
  ⟨some (.str "val_loss"), some (.str "min"), some 3, some (.int 0),
   some 5, some (.int 7), some 2⟩

/-- A trainer with one metric, one early-stopping callback, one optimizer and
a non-empty best checkpoint path. -/
def sampleTrainer : Trainer :=
  ⟨[("loss", .int 1)], [.earlyStopping sampleES], .int 5,
   some [⟨"Adam", some [("lr", .int 1), ("eps", .int 2)]⟩], ⟨"ckpt"⟩⟩

/-- A trainer with one metric and nothing else. -/
def plainTrainer : Trainer :=
  ⟨[("loss", .int 1)], [], .int 5, none, ⟨""⟩⟩

/-! ### Helper lemmas -/

theorem ne_of_ne_length {s t : String} (h : s.length ≠ t.length) : s ≠ t :=
  fun e => h (congrArg String.length e)

theorem wrapped_of_mem_log_early_stop_params (es : EarlyStoppingCfg) :
    ∀ e ∈ _log_early_stop_params es, e.wrapped = true := by
  intro e he
  unfold _log_early_stop_params at he
  simp only [List.mem_append] at he
  rcases he with ((((he | he) | he) | he) | he) <;> split at he <;>
    simp_all [try_mlflow_log]

theorem wrapped_of_mem_logOptimizerParams (o : Optimizer) :
    ∀ e ∈ logOptimizerParams o, e.wrapped = true := by
  intro e he
  unfold logOptimizerParams at he
  simp only [List.mem_cons] at he
  rcases he with he | he
  · subst he; rfl
  · split at he
    · simp at he
    · simp only [List.mem_append] at he
      rcases he with ((he | he) | he) | he <;> split at he <;>
        simp_all [try_mlflow_log]

theorem early_stop_check_ok_shape (es : EarlyStoppingCfg)
    (l : List Emitted) (h : _early_stop_check es = .ok l) :
    ∀ e ∈ l, e.wrapped = true ∧ ∃ k v, e.call = .log_metric k v none := by
  rcases es with ⟨m, mo, p, md, se, bs, wc⟩
  cases se with
  | none => simp [_early_stop_check, getattr_or_raise] at h
  | some s =>
    by_cases hs : s = 0
    · subst hs
      simp [_early_stop_check, getattr_or_raise] at h
      subst h
      intro e he
      exact absurd he (List.not_mem_nil e)
    · cases p with
      | none => simp [_early_stop_check, getattr_or_raise, hs] at h
      | some pa =>
        cases bs <;> cases wc <;>
          (simp [_early_stop_check, getattr_or_raise, hs, try_mlflow_log] at h;
           subst h;
           intro e he;
           simp at he) <;>
          rcases he with rfl | rfl | rfl | rfl <;>
          exact ⟨rfl, _, _, rfl⟩

theorem esChecks_ok_shape (cbs : List PLCallback) (l : List Emitted)
    (h : esChecks cbs = .ok l) :
    ∀ e ∈ l, e.wrapped = true ∧ ∃ k v, e.call = .log_metric k v none := by
  induction cbs generalizing l with
  | nil =>
      simp [esChecks] at h
      subst h
      intro e he
      exact absurd he (List.not_mem_nil e)
  | cons cb rest ih =>
      cases cb with
      | earlyStopping es =>
          unfold esChecks at h
          cases hc : _early_stop_check es with
          | error msg => rw [hc] at h; simp at h
          | ok l1 =>
              rw [hc] at h
              cases hr : esChecks rest with
              | error msg => rw [hr] at h; simp at h
              | ok l2 =>
                  rw [hr] at h
                  simp only [Except.ok.injEq] at h
                  subst h
                  intro e he
                  rcases List.mem_append.1 he with h1 | h2
                  · exact early_stop_check_ok_shape es l1 hc e h1
                  · exact ih l2 hr e h2
      | mlflowCallback b => exact ih l h
      | otherCallback i => exact ih l h

theorem on_epoch_end_ok_decomp (n : Int) (t : Trainer) (pm : PLModule)
    (tr : List Emitted) (h : on_epoch_end n t pm = .ok tr) :
    ∃ esPart, esChecks t.callbacks = .ok esPart ∧
      tr = (if (pm.current_epoch + 1) % n = 0 then
              t.callback_metrics.map fun kv =>
                try_mlflow_log
                  (.log_metric kv.1 (.float kv.2) (some pm.current_epoch))
            else []) ++ esPart := by
  unfold on_epoch_end at h
  cases hc : esChecks t.callbacks with
  | error msg => rw [hc] at h; simp at h
  | ok esPart =>
      rw [hc] at h
      simp only [Except.ok.injEq] at h
      exact ⟨esPart, rfl, h.symm⟩

theorem wrapped_of_mem_on_train_start (flag : Bool) (t : Trainer)
    (pm : PLModule) : ∀ e ∈ (on_train_start flag t pm).2, e.wrapped = true := by
  intro e he
  unfold on_train_start at he
  simp only [List.mem_cons, List.mem_append, List.mem_singleton] at he
  rcases he with ((rfl | rfl | he) | he) | (rfl | he)
  · rfl
  · rfl
  · obtain ⟨cb, _, hecb⟩ := List.mem_flatMap.1 he
    cases cb with
    | earlyStopping es => exact wrapped_of_mem_log_early_stop_params es e hecb
    | mlflowCallback b => simp at hecb
    | otherCallback i => simp at hecb
  · split at he
    · obtain ⟨o, _, heo⟩ := List.mem_flatMap.1 he
      exact wrapped_of_mem_logOptimizerParams o e heo
    · simp at he
  · rfl
  · simp at he

theorem wrapped_of_mem_on_test_end (t : Trainer) :
    ∀ e ∈ on_test_end t, e.wrapped = true := by
  intro e he
  unfold on_test_end at he
  simp only [List.mem_cons] at he
  rcases he with rfl | he
  · rfl
  · obtain ⟨kv, _, rfl⟩ := List.mem_map.1 he
    rfl

theorem on_train_end_shape (flag : Bool) (t : Trainer) :
    ∀ e ∈ on_train_end flag t,
      e.wrapped = true ∨ e = direct_call (.log_model "model") := by
  intro e he
  unfold on_train_end at he
  simp only [List.mem_cons] at he
  rcases he with rfl | he
  · exact Or.inr rfl
  · split at he
    · simp only [List.mem_singleton] at he; subst he; exact Or.inl rfl
    · simp at he

theorem runEmitted_ok_of_safe (fails : MlflowCall → Bool) (l : List Emitted)
    (h : ∀ e ∈ l, e.wrapped = true ∨ fails e.call = false) :
    ∃ r, runEmitted fails l = .ok r := by
  induction l with
  | nil => exact ⟨[], rfl⟩
  | cons e es ih =>
      obtain ⟨r, hr⟩ := ih fun x hx => h x (List.mem_cons_of_mem _ hx)
      by_cases hw : e.wrapped
      · exact ⟨if fails e.call then r else e.call :: r,
          by simp [runEmitted, hw, hr]⟩
      · have hf : fails e.call = false := by
          rcases h e (List.mem_cons_self _ _) with h1 | h1
          · exact absurd h1 hw
          · exact h1
        exact ⟨e.call :: r, by simp [runEmitted, hw, hf, hr]⟩

theorem activeAfter_append (a : Bool) (l1 l2 : List Emitted) :
    activeAfter a (l1 ++ l2) = activeAfter (activeAfter a l1) l2 := by
  unfold activeAfter
  exact List.foldl_append _ _ _ _

theorem activeAfter_of_noRunManagement (a : Bool) (l : List Emitted)
    (h : noRunManagement l) : activeAfter a l = a := by
  induction l generalizing a with
  | nil => rfl
  | cons e es ih =>
      have he := h e (List.mem_cons_self _ _)
      have hstep : applyRunCall a e.call = a := by
        cases hc : e.call <;> simp_all [applyRunCall]
      calc activeAfter a (e :: es)
          = activeAfter (applyRunCall a e.call) es := rfl
        _ = activeAfter a es := by rw [hstep]
        _ = a := ih a fun x hx => h x (List.mem_cons_of_mem _ hx)

theorem wrapped_of_on_epoch_end_ok (n : Int) (t : Trainer) (pm : PLModule)
    (tr : List Emitted) (h : on_epoch_end n t pm = .ok tr) :
    ∀ e ∈ tr, e.wrapped = true := by
  obtain ⟨esPart, hes, rfl⟩ := on_epoch_end_ok_decomp n t pm tr h
  intro e he
  rcases List.mem_append.1 he with h1 | h2
  · split at h1
    · obtain ⟨kv, _, rfl⟩ := List.mem_map.1 h1
      rfl
    · simp at h1
  · exact (esChecks_ok_shape _ _ hes e h2).1

theorem countMlflowCallbacks_registerCallback (cbs : List PLCallback) :
    countMlflowCallbacks (registerCallback cbs) =
      if countMlflowCallbacks cbs = 0 then 1 else countMlflowCallbacks cbs := by
  unfold registerCallback countMlflowCallbacks
  by_cases h : cbs.any isMlflowCallback
  · have hpos : 0 < cbs.countP isMlflowCallback := by
      obtain ⟨x, hx, hpx⟩ := List.any_eq_true.1 h
      exact List.countP_pos_iff.2 ⟨x, hx, hpx⟩
    simp [h, Nat.pos_iff_ne_zero.1 hpos]
  · have hz : cbs.countP isMlflowCallback = 0 := by
      rw [List.countP_eq_zero]
      intro x hx
      exact fun hpx => h (List.any_eq_true.2 ⟨x, hx, hpx⟩)
    simp [h, hz, List.countP_append, isMlflowCallback]

theorem append_ne {a t b : String} (h : a.length + t.length ≠ b.length) :
    a ++ t ≠ b := by
  apply ne_of_ne_length
  rw [String.length_append]
  exact h

theorem append_ne_append {a b t : String} (h : a.length ≠ b.length) :
    a ++ t ≠ b ++ t := by
  apply ne_of_ne_length
  rw [String.length_append, String.length_append]
  omega

theorem log_early_stop_params_mem (es : EarlyStoppingCfg) :
    (∀ v, try_mlflow_log (.log_param "monitor" v) ∈ _log_early_stop_params es
       ↔ es.monitor = some v) ∧
    (∀ v, try_mlflow_log (.log_param "mode" v) ∈ _log_early_stop_params es
       ↔ es.mode = some v) ∧
    (∀ p : Int,
       try_mlflow_log (.log_param "patience" (.int p)) ∈
           _log_early_stop_params es
       ↔ es.patience = some p) ∧
    (∀ v, try_mlflow_log (.log_param "min_delta" v) ∈
           _log_early_stop_params es
       ↔ es.min_delta = some v) ∧
    (∀ se : Int,
       try_mlflow_log (.log_param "stopped_epoch" (.int se)) ∈
           _log_early_stop_params es
       ↔ es.stopped_epoch = some se) := by
  rcases es with ⟨m, mo, p, md, se, bs, wc⟩
  cases m <;> cases mo <;> cases p <;> cases md <;> cases se <;>
    simp [_log_early_stop_params, try_mlflow_log, eq_comm]

theorem logOptimizerParams_mem (o : Optimizer) :
    try_mlflow_log (.log_param "optimizer_name" (.str o.cls_name)) ∈
        logOptimizerParams o ∧
    (∀ v, try_mlflow_log
        (.log_param ("learning_rate_" ++ (pyLower o.cls_name ++ "_optimizer"))
          v) ∈ logOptimizerParams o
       ↔ (o.defaults.bind fun d => d.lookup "lr") = some v) ∧
    (∀ v, try_mlflow_log
        (.log_param ("epsilon_" ++ (pyLower o.cls_name ++ "_optimizer")) v) ∈
          logOptimizerParams o
       ↔ (o.defaults.bind fun d => d.lookup "eps") = some v) ∧
    (∀ v, try_mlflow_log
        (.log_param ("betas_" ++ (pyLower o.cls_name ++ "_optimizer")) v) ∈
          logOptimizerParams o
       ↔ (o.defaults.bind fun d => d.lookup "betas") = some v) ∧
    (∀ v, try_mlflow_log
        (.log_param ("weight_decay_" ++ (pyLower o.cls_name ++ "_optimizer"))
          v) ∈ logOptimizerParams o
       ↔ (o.defaults.bind fun d => d.lookup "weight_decay") = some v) := by
  rcases o with ⟨nm, d⟩
  have l10 : ("_optimizer" : String).length = 10 := by decide
  have l14 : ("learning_rate_" : String).length = 14 := by decide
  have l8 : ("epsilon_" : String).length = 8 := by decide
  have l6 : ("betas_" : String).length = 6 := by decide
  have l13 : ("weight_decay_" : String).length = 13 := by decide
  have lon : ("optimizer_name" : String).length = 14 := by decide
  have h1 : "learning_rate_" ++ (pyLower nm ++ "_optimizer") ≠
      "optimizer_name" := by
    apply append_ne
    rw [String.length_append, l14, l10, lon]
    omega
  have h2 : "epsilon_" ++ (pyLower nm ++ "_optimizer") ≠ "optimizer_name" := by
    apply append_ne
    rw [String.length_append, l8, l10, lon]
    omega
  have h3 : "betas_" ++ (pyLower nm ++ "_optimizer") ≠ "optimizer_name" := by
    apply append_ne
    rw [String.length_append, l6, l10, lon]
    omega
  have h4 : "weight_decay_" ++ (pyLower nm ++ "_optimizer") ≠
      "optimizer_name" := by
    apply append_ne
    rw [String.length_append, l13, l10, lon]
    omega
  have h5 : "learning_rate_" ++ (pyLower nm ++ "_optimizer") ≠
      "epsilon_" ++ (pyLower nm ++ "_optimizer") := by
    apply append_ne_append
    rw [l14, l8]
    omega
  have h6 : "learning_rate_" ++ (pyLower nm ++ "_optimizer") ≠
      "betas_" ++ (pyLower nm ++ "_optimizer") := by
    apply append_ne_append
    rw [l14, l6]
    omega
  have h7 : "learning_rate_" ++ (pyLower nm ++ "_optimizer") ≠
      "weight_decay_" ++ (pyLower nm ++ "_optimizer") := by
    apply append_ne_append
    rw [l14, l13]
    omega
  have h8 : "epsilon_" ++ (pyLower nm ++ "_optimizer") ≠
      "betas_" ++ (pyLower nm ++ "_optimizer") := by
    apply append_ne_append
    rw [l8, l6]
    omega
  have h9 : "epsilon_" ++ (pyLower nm ++ "_optimizer") ≠
      "weight_decay_" ++ (pyLower nm ++ "_optimizer") := by
    apply append_ne_append
    rw [l8, l13]
    omega
  have h10 : "betas_" ++ (pyLower nm ++ "_optimizer") ≠
      "weight_decay_" ++ (pyLower nm ++ "_optimizer") := by
    apply append_ne_append
    rw [l6, l13]
    omega
  cases d with
  | none =>
      simp [logOptimizerParams, try_mlflow_log, h1, h2, h3, h4]
  | some dict =>
      cases hlr : dict.lookup "lr" <;> cases heps : dict.lookup "eps" <;>
        cases hbet : dict.lookup "betas" <;>
        cases hwd : dict.lookup "weight_decay" <;>
        simp [logOptimizerParams, try_mlflow_log, hlr, heps, hbet, hwd,
          h1, h2, h3, h4, h5, h6, h7, h8, h9, h10, h5.symm, h6.symm, h7.symm,
          h8.symm, h9.symm, h10.symm, eq_comm]

/-! ### Claim theorems -/

/-- C1, counterexample: the claim says every value forwarded to the logging
client is logged through an error-swallowing wrapper, so a failure of any
logging call never propagates out of a lifecycle hook.  But `on_train_end`
calls `mlflow.pytorch.log_model` directly (source line 141), outside
`try_mlflow_log`: with a client that fails exactly that call, invoking the
train-end hook propagates the failure as an uncaught exception. -/
theorem c1_model_log_failure_propagates :
    runEmitted (fun c => decide (c = .log_model "model"))
      (on_train_end false plainTrainer) = .error (.log_model "model") := rfl

/-- C1, amended: every logging call the hooks make is routed through the
error-swallowing `try_mlflow_log` wrapper except the single direct
`mlflow.pytorch.log_model` call in `on_train_end`; consequently a failure of
any wrapped call never propagates, and provided the client does not fail that
one direct model-store call, no lifecycle hook invocation (epoch end, train
start, train end, test end) propagates a logging failure. -/
theorem c1_amended_only_model_store_unwrapped (fails : MlflowCall → Bool)
    (n : Int) (flag flag2 : Bool) (t : Trainer) (pm : PLModule)
    (hm : fails (.log_model "model") = false) :
    (∀ e ∈ (on_train_start flag t pm).2, e.wrapped = true) ∧
    (∀ tr, on_epoch_end n t pm = .ok tr → ∀ e ∈ tr, e.wrapped = true) ∧
    (∀ e ∈ on_test_end t, e.wrapped = true) ∧
    (∀ e ∈ on_train_end flag2 t,
      e.wrapped = true ∨ e.call = .log_model "model") ∧
    (∃ r, runEmitted fails (on_train_start flag t pm).2 = .ok r) ∧
    (∀ tr, on_epoch_end n t pm = .ok tr →
      ∃ r, runEmitted fails tr = .ok r) ∧
    (∃ r, runEmitted fails (on_test_end t) = .ok r) ∧
    (∃ r, runEmitted fails (on_train_end flag2 t) = .ok r) := by
  refine ⟨wrapped_of_mem_on_train_start flag t pm,
    fun tr h => wrapped_of_on_epoch_end_ok n t pm tr h,
    wrapped_of_mem_on_test_end t, ?_, ?_, ?_, ?_, ?_⟩
  · intro e he
    rcases on_train_end_shape flag2 t e he with hw | rfl
    · exact Or.inl hw
    · exact Or.inr rfl
  · exact runEmitted_ok_of_safe fails _
      fun e he => Or.inl (wrapped_of_mem_on_train_start flag t pm e he)
  · intro tr h
    exact runEmitted_ok_of_safe fails tr
      fun e he => Or.inl (wrapped_of_on_epoch_end_ok n t pm tr h e he)
  · exact runEmitted_ok_of_safe fails _
      fun e he => Or.inl (wrapped_of_mem_on_test_end t e he)
  · refine runEmitted_ok_of_safe fails _ fun e he => ?_
    rcases on_train_end_shape flag2 t e he with hw | rfl
    · exact Or.inl hw
    · exact Or.inr hm

/-- Witness for C1 (amended), at a client that fails every call except the
direct model store: the train-end hook still completes. -/
theorem c1_amended_witness :
    (fun c => decide (c ≠ MlflowCall.log_model "model"))
        (MlflowCall.log_model "model") = false ∧
    ∃ r, runEmitted (fun c => decide (c ≠ MlflowCall.log_model "model"))
        (on_train_end true sampleTrainer) = .ok r :=
  ⟨by decide,
   (c1_amended_only_model_store_unwrapped
      (fun c => decide (c ≠ MlflowCall.log_model "model")) 1 false true
      sampleTrainer ⟨0⟩ (by decide)).2.2.2.2.2.2.2⟩

/-- C2: on each invocation of the patched `fit`, when no run is active at
entry the wrapper emits `start_run` first and `end_run` right after the
original `fit` returns, and — provided the original `fit` performs no run
management of its own — no run is active afterwards; when a run is already
active at entry, the wrapper's trace is exactly the original's, contains no
run management, and the run active at entry is still active at exit. -/
theorem c2_fit_run_lifecycle {α ρ : Type} (self : Trainer)
    (original : List PLCallback → α → ρ × List Emitted) (args : α)
    (h : ∀ cbs, noRunManagement (original cbs args).2) :
    ((fit false self original args).calls =
        try_mlflow_log .start_run ::
          ((original (registerCallback self.callbacks) args).2 ++
            [try_mlflow_log .end_run])) ∧
    activeAfter false (fit false self original args).calls = false ∧
    ((fit true self original args).calls =
        (original (registerCallback self.callbacks) args).2) ∧
    activeAfter true (fit true self original args).calls = true := by
  have hfalse : (fit false self original args).calls =
      try_mlflow_log .start_run ::
        ((original (registerCallback self.callbacks) args).2 ++
          [try_mlflow_log .end_run]) := by
    unfold fit _run_and_log_function
    simp
  have htrue : (fit true self original args).calls =
      (original (registerCallback self.callbacks) args).2 := by
    unfold fit _run_and_log_function
    simp
  refine ⟨hfalse, ?_, htrue, ?_⟩
  · rw [hfalse]
    have : activeAfter false
        (try_mlflow_log .start_run ::
          ((original (registerCallback self.callbacks) args).2 ++
            [try_mlflow_log .end_run])) =
        activeAfter true
          ((original (registerCallback self.callbacks) args).2 ++
            [try_mlflow_log .end_run]) := rfl
    rw [this, activeAfter_append,
      activeAfter_of_noRunManagement true _ (h (registerCallback self.callbacks))]
    rfl
  · rw [htrue]
    exact activeAfter_of_noRunManagement true _ (h (registerCallback self.callbacks))

/-- Witness for C2, with an original `fit` that makes no client calls:
starting inactive, the patched `fit` emits exactly `start_run` then
`end_run` and leaves no run active; starting active, it emits nothing and
leaves the run active. -/
theorem c2_witness :
    (fit false plainTrainer (fun _ _ => ((42 : Nat), ([] : List Emitted)))
        0).calls = [try_mlflow_log .start_run, try_mlflow_log .end_run] ∧
    activeAfter false
      (fit false plainTrainer (fun _ _ => ((42 : Nat), ([] : List Emitted)))
        0).calls = false ∧
    (fit true plainTrainer (fun _ _ => ((42 : Nat), ([] : List Emitted)))
        0).calls = [] ∧
    activeAfter true
      (fit true plainTrainer (fun _ _ => ((42 : Nat), ([] : List Emitted)))
        0).calls = true := by
  have h := c2_fit_run_lifecycle plainTrainer
    (fun _ _ => ((42 : Nat), ([] : List Emitted))) 0
    (fun cbs => by intro e he; exact absurd he (List.not_mem_nil e))
  exact ⟨h.1, h.2.1, h.2.2.1, h.2.2.2⟩

/-- C3: enabling autologging replaces exactly one attribute of the trainer
class, `fit`: the patched class maps `"fit"` to the patch and agrees with the
unpatched class on every other attribute. -/
theorem c3_patches_only_fit {μ : Type} (trainerCls : String → μ)
    (fitPatch : μ) :
    autologPatchedTrainer trainerCls fitPatch "fit" = fitPatch ∧
    ∀ attr, attr ≠ "fit" →
      autologPatchedTrainer trainerCls fitPatch attr = trainerCls attr := by
  constructor
  · simp [autologPatchedTrainer, wrap_patch]
  · intro attr h
    simp [autologPatchedTrainer, wrap_patch, h]

/-- Witness for C3 at a two-attribute class. -/
theorem c3_witness :
    autologPatchedTrainer (fun _ => (0 : Nat)) 1 "fit" = 1 ∧
    autologPatchedTrainer (fun _ => (0 : Nat)) 1 "predict" = 0 :=
  ⟨(c3_patches_only_fit (fun _ => (0 : Nat)) 1).1,
   (c3_patches_only_fit (fun _ => (0 : Nat)) 1).2 "predict" (by decide)⟩

/-- C4: on an epoch-end hook invocation that completes, each entry of
`trainer.callback_metrics` is logged — converted with `float(...)`, at step
`pl_module.current_epoch` — exactly when `current_epoch + 1` is divisible by
the configured `every_n_epoch` interval (a positive int; the default of 1
makes the divisibility hold for every epoch). -/
theorem c4_epoch_end_metrics (n : Int) (t : Trainer) (pm : PLModule)
    (tr : List Emitted) (_hn : 0 < n) (h : on_epoch_end n t pm = .ok tr)
    (kv : String × PyVal) (hkv : kv ∈ t.callback_metrics) :
    try_mlflow_log (.log_metric kv.1 (.float kv.2) (some pm.current_epoch)) ∈
        tr ↔ n ∣ (pm.current_epoch + 1) := by
  obtain ⟨esPart, hes, rfl⟩ := on_epoch_end_ok_decomp n t pm tr h
  constructor
  · intro hmem
    by_cases hd : (pm.current_epoch + 1) % n = 0
    · exact Int.dvd_of_emod_eq_zero hd
    · rw [if_neg hd] at hmem
      simp only [List.nil_append] at hmem
      obtain ⟨hw, k, v, hc⟩ := esChecks_ok_shape _ _ hes _ hmem
      simp [try_mlflow_log] at hc
  · intro hdvd
    have hd : (pm.current_epoch + 1) % n = 0 := Int.emod_eq_zero_of_dvd hdvd
    rw [if_pos hd]
    exact List.mem_append_left _ (List.mem_map.2 ⟨kv, hkv, rfl⟩)

/-- Witness for C4 at the default interval 1: the single metric of
`plainTrainer` is logged at step 0 after epoch 0. -/
theorem c4_witness :
    try_mlflow_log (.log_metric "loss" (.float (.int 1)) (some 0)) ∈
      [try_mlflow_log (.log_metric "loss" (.float (.int 1)) (some 0))] :=
  (c4_epoch_end_metrics 1 plainTrainer ⟨0⟩
      [try_mlflow_log (.log_metric "loss" (.float (.int 1)) (some 0))]
      (by decide) rfl ("loss", .int 1) (by decide)).mpr (one_dvd _)

/-- C5: on every train-end hook invocation — with the callback's
`early_stopping` flag as `on_train_start` left it, starting from the
`__init__` value `False` — the trained model is stored under artifact path
`"model"`, and the best checkpoint is additionally logged under
`"restored_model_checkpoint"` if and only if an early-stopping callback was
among the trainer's callbacks at train start and the checkpoint callback's
`best_model_path` is non-empty. -/
theorem c5_train_end_artifacts (t0 t : Trainer) (pm : PLModule) :
    direct_call (.log_model "model") ∈
      on_train_end (on_train_start false t0 pm).1 t ∧
    (try_mlflow_log (.log_artifact t.checkpoint_callback.best_model_path
        (some "restored_model_checkpoint")) ∈
        on_train_end (on_train_start false t0 pm).1 t ↔
      (t0.callbacks.any isEarlyStoppingCb = true ∧
       t.checkpoint_callback.best_model_path ≠ "")) := by
  have hflag : (on_train_start false t0 pm).1 =
      t0.callbacks.any isEarlyStoppingCb := by
    unfold on_train_start
    simp
  constructor
  · exact List.mem_cons_self _ _
  · unfold on_train_end
    rw [hflag]
    by_cases hc : t0.callbacks.any isEarlyStoppingCb = true ∧
        t.checkpoint_callback.best_model_path ≠ ""
    · rw [if_pos hc]
      simp [hc]
    · rw [if_neg hc]
      constructor
      · intro hmem
        simp [try_mlflow_log, direct_call] at hmem
      · intro hrhs
        exact absurd hrhs hc

theorem mem_on_train_start_of_es (flag : Bool) (t : Trainer) (pm : PLModule)
    (es : EarlyStoppingCfg) (hes : PLCallback.earlyStopping es ∈ t.callbacks)
    (e : Emitted) (he : e ∈ _log_early_stop_params es) :
    e ∈ (on_train_start flag t pm).2 := by
  unfold on_train_start
  simp only [List.mem_cons, List.mem_append, List.mem_singleton]
  exact Or.inl (Or.inl (Or.inr (Or.inr
    (List.mem_flatMap.2 ⟨.earlyStopping es, hes, he⟩))))

theorem mem_on_train_start_of_opt (flag : Bool) (t : Trainer) (pm : PLModule)
    (os : List Optimizer) (hos : t.optimizers = some os) (o : Optimizer)
    (ho : o ∈ os) (e : Emitted) (he : e ∈ logOptimizerParams o) :
    e ∈ (on_train_start flag t pm).2 := by
  unfold on_train_start
  simp only [List.mem_cons, List.mem_append, List.mem_singleton, hos]
  exact Or.inl (Or.inr (List.mem_flatMap.2 ⟨o, ho, he⟩))

/-- C6: on every train-start hook invocation the shim logs the tag
`Mode=training` and the `epochs` parameter; every call of
`_log_early_stop_params` on an early-stopping callback in the trainer's
callback list, and of the optimizer loop body on each optimizer, lands in the
hook's trace; `_log_early_stop_params` logs each of `monitor`, `mode`,
`patience`, `min_delta`, `stopped_epoch` exactly when that attribute exists
(with its value); and the optimizer loop logs the optimizer class name, and
logs learning rate, epsilon, betas and weight decay — each under the name
suffixed with the lower-cased optimizer class name plus `"_optimizer"` —
exactly when the corresponding key (`lr`, `eps`, `betas`, `weight_decay`) is
present in the optimizer's `defaults` dict. -/
theorem c6_train_start_params (flag : Bool) (t : Trainer) (pm : PLModule) :
    (try_mlflow_log (.set_tag "Mode" "training") ∈
        (on_train_start flag t pm).2 ∧
     try_mlflow_log (.log_param "epochs" t.max_epochs) ∈
        (on_train_start flag t pm).2) ∧
    (∀ es, PLCallback.earlyStopping es ∈ t.callbacks →
      ∀ e ∈ _log_early_stop_params es, e ∈ (on_train_start flag t pm).2) ∧
    (∀ os, t.optimizers = some os → ∀ o ∈ os,
      ∀ e ∈ logOptimizerParams o, e ∈ (on_train_start flag t pm).2) ∧
    (∀ es : EarlyStoppingCfg,
      (∀ v, try_mlflow_log (.log_param "monitor" v) ∈
          _log_early_stop_params es ↔ es.monitor = some v) ∧
      (∀ v, try_mlflow_log (.log_param "mode" v) ∈
          _log_early_stop_params es ↔ es.mode = some v) ∧
      (∀ p : Int, try_mlflow_log (.log_param "patience" (.int p)) ∈
          _log_early_stop_params es ↔ es.patience = some p) ∧
      (∀ v, try_mlflow_log (.log_param "min_delta" v) ∈
          _log_early_stop_params es ↔ es.min_delta = some v) ∧
      (∀ se : Int, try_mlflow_log (.log_param "stopped_epoch" (.int se)) ∈
          _log_early_stop_params es ↔ es.stopped_epoch = some se)) ∧
    (∀ o : Optimizer,
      try_mlflow_log (.log_param "optimizer_name" (.str o.cls_name)) ∈
          logOptimizerParams o ∧
      (∀ v, try_mlflow_log
          (.log_param
            ("learning_rate_" ++ (pyLower o.cls_name ++ "_optimizer")) v) ∈
            logOptimizerParams o
         ↔ (o.defaults.bind fun d => d.lookup "lr") = some v) ∧
      (∀ v, try_mlflow_log
          (.log_param ("epsilon_" ++ (pyLower o.cls_name ++ "_optimizer"))
            v) ∈ logOptimizerParams o
         ↔ (o.defaults.bind fun d => d.lookup "eps") = some v) ∧
      (∀ v, try_mlflow_log
          (.log_param ("betas_" ++ (pyLower o.cls_name ++ "_optimizer")) v) ∈
            logOptimizerParams o
         ↔ (o.defaults.bind fun d => d.lookup "betas") = some v) ∧
      (∀ v, try_mlflow_log
          (.log_param
            ("weight_decay_" ++ (pyLower o.cls_name ++ "_optimizer")) v) ∈
            logOptimizerParams o
         ↔ (o.defaults.bind fun d => d.lookup "weight_decay") = some v)) := by
  refine ⟨⟨?_, ?_⟩, mem_on_train_start_of_es flag t pm,
    mem_on_train_start_of_opt flag t pm,
    fun es => log_early_stop_params_mem es,
    fun o => logOptimizerParams_mem o⟩
  · exact List.mem_cons_self _ _
  · exact List.mem_cons_of_mem _ (List.mem_cons_self _ _)

/-- Witness for C6 at `sampleTrainer`: the tag, the early-stop `monitor`
parameter and the Adam learning-rate parameter all appear in the train-start
trace. -/
theorem c6_witness :
    try_mlflow_log (.set_tag "Mode" "training") ∈
      (on_train_start false sampleTrainer ⟨0⟩).2 ∧
    try_mlflow_log (.log_param "monitor" (.str "val_loss")) ∈
      (on_train_start false sampleTrainer ⟨0⟩).2 ∧
    try_mlflow_log (.log_param "learning_rate_adam_optimizer" (.int 1)) ∈
      (on_train_start false sampleTrainer ⟨0⟩).2 := by
  have h := c6_train_start_params false sampleTrainer ⟨0⟩
  refine ⟨h.1.1, ?_, ?_⟩
  · exact h.2.1 sampleES (by decide) _
      (((h.2.2.2.1 sampleES).1 (.str "val_loss")).mpr rfl)
  · exact h.2.2.1 [⟨"Adam", some [("lr", .int 1), ("eps", .int 2)]⟩] rfl
      ⟨"Adam", some [("lr", .int 1), ("eps", .int 2)]⟩ (by decide) _
      (((h.2.2.2.2 ⟨"Adam", some [("lr", .int 1), ("eps", .int 2)]⟩).2.1
        (.int 1)).mpr (by decide))

/-- C7: the registered callback reacts to exactly the four lifecycle hooks
epoch end, train start, train end and test end: dispatching any other hook is
the no-op inherited from `pl.Callback` (state unchanged, nothing forwarded to
the client), while each of the four overridden hooks does forward calls, as
shown on a concrete trainer. -/
theorem c7_exactly_four_hooks :
    (∀ (n : Int) (flag : Bool) (t : Trainer) (pm : PLModule) (name : String),
      runHook n flag t pm (.otherHook name) = (flag, .ok [])) ∧
    (runHook 1 false plainTrainer ⟨0⟩ .epoch_end).2 =
      .ok [try_mlflow_log (.log_metric "loss" (.float (.int 1)) (some 0))] ∧
    (runHook 1 false plainTrainer ⟨0⟩ .train_start).2 =
      .ok [try_mlflow_log (.set_tag "Mode" "training"),
           try_mlflow_log (.log_param "epochs" (.int 5)),
           try_mlflow_log (.log_artifact "model_summary.txt" none)] ∧
    (runHook 1 false plainTrainer ⟨0⟩ .train_end).2 =
      .ok [direct_call (.log_model "model")] ∧
    (runHook 1 false plainTrainer ⟨0⟩ .test_end).2 =
      .ok [try_mlflow_log (.set_tag "Mode" "testing"),
           try_mlflow_log (.log_metric "loss" (.float (.int 1)) none)] :=
  ⟨fun _ _ _ _ _ => rfl, rfl, rfl, rfl, rfl⟩

/-- C8: the patched `fit` returns exactly the value returned by the original,
unpatched `fit` applied to the same trainer — the very object the patch just
registered its callback on, hence with callback list
`registerCallback self.callbacks` — and the same arguments. -/
theorem c8_fit_returns_original_result {α ρ : Type} (active_run : Bool)
    (self : Trainer) (original : List PLCallback → α → ρ × List Emitted)
    (args : α) :
    (fit active_run self original args).result =
      (original (registerCallback self.callbacks) args).1 := rfl

/-- C9: registering the autologging callback is idempotent.  The patched
`fit` leaves the trainer's callback list at `registerCallback` of its former
value; `registerCallback` appends one fresh `__MLflowPLCallback` exactly when
none is present and otherwise changes nothing; hence any number of `fit`
invocations starting from a trainer without the callback leaves at most one
instance in the list. -/
theorem iterate_registerCallback_le_one :
    ∀ (k : Nat) (cbs : List PLCallback), countMlflowCallbacks cbs ≤ 1 →
      countMlflowCallbacks (registerCallback^[k] cbs) ≤ 1 := by
  intro k
  induction k with
  | zero => intro cbs h; simpa using h
  | succ m ih =>
      intro cbs h
      rw [Function.iterate_succ_apply]
      refine ih (registerCallback cbs) ?_
      rw [countMlflowCallbacks_registerCallback]
      split <;> omega

theorem c9_register_idempotent :
    (∀ {α ρ : Type} (active : Bool) (cbs : List PLCallback)
        (original : List PLCallback → α → ρ × List Emitted) (args : α),
      (_run_and_log_function active cbs original args).callbacks =
        registerCallback cbs) ∧
    (∀ cbs, cbs.any isMlflowCallback = true → registerCallback cbs = cbs) ∧
    (∀ cbs, cbs.any isMlflowCallback = false →
      registerCallback cbs = cbs ++ [.mlflowCallback false]) ∧
    (∀ (k : Nat) (cbs : List PLCallback), countMlflowCallbacks cbs = 0 →
      countMlflowCallbacks (registerCallback^[k] cbs) ≤ 1) := by
  refine ⟨fun active cbs original args => rfl, ?_, ?_, ?_⟩
  · intro cbs h
    unfold registerCallback
    rw [if_pos h]
  · intro cbs h
    unfold registerCallback
    rw [if_neg (by simp [h])]
  · intro k cbs h
    exact iterate_registerCallback_le_one k cbs (by omega)

/-- Witness for C9: two `fit`-style registrations starting from an empty
callback list leave exactly one `__MLflowPLCallback`. -/
theorem c9_witness :
    countMlflowCallbacks ([] : List PLCallback) = 0 ∧
    ([] : List PLCallback).any isMlflowCallback = false ∧
    countMlflowCallbacks (registerCallback^[2] ([] : List PLCallback)) ≤ 1 :=
  ⟨rfl, rfl, c9_register_idempotent.2.2.2 2 [] rfl⟩

/-- C10: `_early_stop_check` logs early-stopping metrics only when
`stopped_epoch` is nonzero — a stop recorded at epoch 0 produces no calls —
and when it is nonzero (with `patience` present) the logged `restored_epoch`
equals `stopped_epoch - max 1 patience`. -/
theorem c10_early_stop_check (es : EarlyStoppingCfg) :
    (es.stopped_epoch = some 0 → _early_stop_check es = .ok []) ∧
    (∀ (se p : Int) (l : List Emitted), es.stopped_epoch = some se →
      se ≠ 0 → es.patience = some p → _early_stop_check es = .ok l →
      try_mlflow_log (.log_metric "restored_epoch" (.int (se - max 1 p))
          none) ∈ l) := by
  constructor
  · intro h
    simp [_early_stop_check, h, getattr_or_raise]
  · intro se p l h1 h2 h3 h4
    unfold _early_stop_check at h4
    rw [h1, h3] at h4
    simp only [getattr_or_raise, Option.isSome_some, if_true, h2,
      if_neg (by trivial : ¬False)] at h4
    rw [if_pos h2] at h4
    simp only [Except.ok.injEq] at h4
    subst h4
    exact List.mem_append_left _ (List.mem_append_left _ (by simp))

/-- Witness for C10: `sampleES` stopped at epoch 5 with patience 3, so
`restored_epoch = 2` is logged; an early stop recorded at epoch 0 logs
nothing. -/
theorem c10_witness :
    try_mlflow_log (.log_metric "restored_epoch" (.int 2) none) ∈
      [try_mlflow_log (.log_metric "stopped_epoch" (.int 5) none),
       try_mlflow_log (.log_metric "restored_epoch" (.int 2) none),
       try_mlflow_log (.log_metric "best_score" (.float (.int 7)) none),
       try_mlflow_log (.log_metric "wait_count" (.int 2) none)] ∧
    _early_stop_check ⟨none, none, some 3, none, some 0, none, none⟩ =
      .ok [] :=
  ⟨(c10_early_stop_check sampleES).2 5 3 _ rfl (by decide) rfl rfl,
   (c10_early_stop_check ⟨none, none, some 3, none, some 0, none, none⟩).1 rfl⟩

end PytorchAutolog
